import Mathlib

/-
Verification development for the CodeNarrator pipeline orchestrator
(src/analyzer.js, function analyzeCodebase).

The orchestrator is embedded shallowly: the external collaborators
(filesystem existence check, glob-based discovery, file reading, the AI
client callGemini, the markdown writer writeMarkdown, and the path
library relative-path computation) are fields of an Env record, since
they live outside the analyzed source file.  A run produces a RunResult
(normal completion with the two counters, or a thrown error message)
together with an ordered trace of observable events, mirroring the
sequential await-based control flow of the JavaScript code.  Plain
console narration (progress lines, verbose details) is presentation
only and is not part of the trace; the semantically relevant
observables are: the discovery attempt, per-file read / AI-call / write
attempts, per-file error reports, the inter-file delay, the zero-files
warning, the fatal-error log in the catch block, and the final summary.
-/

/-- One observable step of a run, in the order the code performs them. -/
inductive Event where
  | discoverAttempt (pattern : String)
  | readAttempt (file : String)
  | aiCall (prompt : String)
  | writeAttempt (file : String) (doc : String) (outputRoot : String)
  | errorReport (relativePath : String) (msg : String)
  | delay (ms : Nat)
  | warnNoFiles
  | errorLog (msg : String)
  | summary (successCount errorCount : Nat)
  deriving DecidableEq, Repr

/-- The external world the orchestrator runs against: filesystem,
discovery library, AI client and markdown writer.  Fallible calls
return Except: an error value models a thrown JavaScript exception
carrying its message. -/
structure Env where
  existsSync : String → Bool
  glob : String → Except String (List String)
  readFileSync : String → Except String String
  callGemini : String → Except String String
  writeMarkdown : String → String → String → Except String String
  relative : String → String → String

/-- The options object accepted by analyzeCodebase.  The output and
model fields are absent-or-string; verbose is a flag. -/
structure Options where
  output : Option String
  model : Option String
  verbose : Bool
  deriving DecidableEq, Repr

/-- The folderPath argument as JavaScript sees it: a string, or any
non-string value.  All non-string values fail the same typeof check. -/
inductive FolderPathArg where
  | str (s : String)
  | nonString
  deriving DecidableEq, Repr

/-- The outcome of a run: normal completion carrying the final
successCount and errorCount, or an error thrown to the caller. -/
inductive RunResult where
  | ok (successCount errorCount : Nat)
  | thrown (msg : String)
  deriving DecidableEq, Repr

/-- The prompt built for one file: the fixed instruction template from
the source, then the relative path, then the file content verbatim. -/
def promptFor (relativePath fileContent : String) : String :=
  "Generate comprehensive documentation for the following JavaScript file.\n" ++
  "Include:\n" ++
  "1. File purpose and functionality\n" ++
  "2. Key functions/classes with descriptions\n" ++
  "3. Inputs/outputs\n" ++
  "4. Dependencies\n" ++
  "5. Any important notes or warnings\n" ++
  "\n" ++
  "File: " ++ relativePath ++ "\n" ++
  "\n" ++
  fileContent

/-- The try block body of one loop iteration: read the file, call the
AI client, write the markdown; any failure is caught locally and
reported with the relative path and the error message.  Returns whether
the iteration succeeded, together with its event trace. -/
def processFile (env : Env) (folderPath output file : String) :
    Bool × List Event :=
  let relativePath := env.relative folderPath file
  match env.readFileSync file with
  | .error e => (false, [.readAttempt file, .errorReport relativePath e])
  | .ok fileContent =>
    let prompt := promptFor relativePath fileContent
    match env.callGemini prompt with
    | .error e =>
        (false, [.readAttempt file, .aiCall prompt, .errorReport relativePath e])
    | .ok documentation =>
      match env.writeMarkdown file documentation output with
      | .error e =>
          (false, [.readAttempt file, .aiCall prompt,
            .writeAttempt file documentation output, .errorReport relativePath e])
      | .ok _ =>
          (true, [.readAttempt file, .aiCall prompt,
            .writeAttempt file documentation output])

/-- The per-file loop: files in discovery order with a zero-based
index; after every file except the last (index < total - 1) a fixed
500 ms delay is taken.  Returns (successCount, errorCount, trace). -/
def processLoop (env : Env) (folderPath output : String) (total : Nat) :
    List String → Nat → Nat × Nat × List Event
  | [], _ => (0, 0, [])
  | file :: rest, index =>
    let r := processFile env folderPath output file
    let delayEvents : List Event :=
      if index < total - 1 then [Event.delay 500] else []
    let t := processLoop env folderPath output total rest (index + 1)
    ((if r.1 then 1 else 0) + t.1,
     (if r.1 then 0 else 1) + t.2.1,
     r.2 ++ (delayEvents ++ t.2.2))

/-- The orchestrator analyzeCodebase.  Argument validation happens
before the try block (such throws are not logged); inside the try
block, a missing folder or a discovery error is thrown, caught by the
catch block, logged and re-thrown unaltered; zero discovered files is a
warning and a normal return; otherwise the loop runs and a summary is
printed. -/
def analyzeCodebase (env : Env) (folderPath : FolderPathArg)
    (options : Options) : RunResult × List Event :=
  match folderPath with
  | .nonString => (.thrown "Invalid folder path", [])
  | .str fp =>
    if fp = "" then (.thrown "Invalid folder path", [])
    else
      match options.output with
      | none => (.thrown "Output directory must be specified", [])
      | some out =>
        if out = "" then (.thrown "Output directory must be specified", [])
        else
          if env.existsSync fp = false then
            (.thrown ("Folder does not exist: " ++ fp),
             [.errorLog ("Folder does not exist: " ++ fp)])
          else
            let pat := fp ++ "/**/*.js"
            match env.glob pat with
            | .error e => (.thrown e, [.discoverAttempt pat, .errorLog e])
            | .ok files =>
              if files.length = 0 then
                (.ok 0 0, [.discoverAttempt pat, .warnNoFiles])
              else
                let r := processLoop env fp out files.length files 0
                (.ok r.1 r.2.1,
                 .discoverAttempt pat :: (r.2.2 ++ [.summary r.1 r.2.1]))

/-- Whether one iteration of the loop succeeds for the given file. -/
def fileSucceeds (env : Env) (folderPath output file : String) : Bool :=
  (processFile env folderPath output file).1

/-- Recognizer for delay events, used to count inter-file pauses. -/
def Event.isDelay : Event → Bool
  | .delay _ => true
  | _ => false

/-- A concrete environment where every collaborator succeeds and
discovery finds two files. -/
def demoEnv : Env where
  existsSync := fun _ => true
  glob := fun _ => .ok ["proj/a.js", "proj/b.js"]
  readFileSync := fun f => .ok ("content of " ++ f)
  callGemini := fun p => .ok ("DOC:" ++ p)
  writeMarkdown := fun f _ out => .ok (out ++ "/" ++ f)
  relative := fun _ f => f

/-- A concrete environment where discovery finds no files. -/
def emptyEnv : Env where
  existsSync := fun _ => true
  glob := fun _ => .ok []
  readFileSync := fun f => .ok f
  callGemini := fun p => .ok p
  writeMarkdown := fun _ d _ => .ok d
  relative := fun _ f => f

/-- A concrete environment where the input folder does not exist. -/
def missingEnv : Env where
  existsSync := fun _ => false
  glob := fun _ => .ok ["proj/a.js"]
  readFileSync := fun f => .ok f
  callGemini := fun p => .ok p
  writeMarkdown := fun _ d _ => .ok d
  relative := fun _ f => f

/-- A concrete environment where the discovery traversal throws. -/
def globErrEnv : Env where
  existsSync := fun _ => true
  glob := fun _ => .error "EACCES"
  readFileSync := fun f => .ok f
  callGemini := fun p => .ok p
  writeMarkdown := fun _ d _ => .ok d
  relative := fun _ f => f

/-- A concrete environment where the AI call fails on the second of
three discovered files. -/
def failEnv : Env where
  existsSync := fun _ => true
  glob := fun _ => .ok ["proj/a.js", "proj/b.js", "proj/c.js"]
  readFileSync := fun f => .ok ("content of " ++ f)
  callGemini := fun p =>
    if p = promptFor "proj/b.js" ("content of " ++ "proj/b.js") then
      .error "quota exceeded"
    else .ok ("DOC:" ++ p)
  writeMarkdown := fun f _ out => .ok (out ++ "/" ++ f)
  relative := fun _ f => f

/-- Standard options used by the concrete witnesses. -/
def demoOpts : Options where
  output := some "out"
  model := none
  verbose := false

/-- Options with the output directory left unset, for the
missing-output fatal error. -/
def noOutOpts : Options where
  output := none
  model := none
  verbose := false

/-- A block of the run trace belonging to one file: the events of its
iteration followed by the inter-file delay when it is not last. -/
def fileBlock (env : Env) (fp out : String) (total : Nat) (p : Nat × String) :
    List Event :=
  (processFile env fp out p.2).2 ++
    (if p.1 < total - 1 then [Event.delay 500] else [])

theorem processLoop_nil (env : Env) (fp out : String) (total idx : Nat) :
    processLoop env fp out total [] idx = (0, 0, []) := rfl

theorem processLoop_cons (env : Env) (fp out : String) (total idx : Nat)
    (file : String) (rest : List String) :
    processLoop env fp out total (file :: rest) idx =
      ((if (processFile env fp out file).1 then 1 else 0) +
         (processLoop env fp out total rest (idx + 1)).1,
       (if (processFile env fp out file).1 then 0 else 1) +
         (processLoop env fp out total rest (idx + 1)).2.1,
       (processFile env fp out file).2 ++
         ((if idx < total - 1 then [Event.delay 500] else []) ++
          (processLoop env fp out total rest (idx + 1)).2.2)) := rfl

/-- Case analysis of one loop iteration: read fails, AI call fails,
write fails, or everything succeeds, each with its exact trace. -/
theorem processFile_cases (env : Env) (fp out file : String) :
    (∃ e, env.readFileSync file = .error e ∧
       processFile env fp out file =
         (false, [.readAttempt file, .errorReport (env.relative fp file) e])) ∨
    (∃ c e, env.readFileSync file = .ok c ∧
       env.callGemini (promptFor (env.relative fp file) c) = .error e ∧
       processFile env fp out file =
         (false, [.readAttempt file, .aiCall (promptFor (env.relative fp file) c),
                  .errorReport (env.relative fp file) e])) ∨
    (∃ c d e, env.readFileSync file = .ok c ∧
       env.callGemini (promptFor (env.relative fp file) c) = .ok d ∧
       env.writeMarkdown file d out = .error e ∧
       processFile env fp out file =
         (false, [.readAttempt file, .aiCall (promptFor (env.relative fp file) c),
                  .writeAttempt file d out, .errorReport (env.relative fp file) e])) ∨
    (∃ c d q, env.readFileSync file = .ok c ∧
       env.callGemini (promptFor (env.relative fp file) c) = .ok d ∧
       env.writeMarkdown file d out = .ok q ∧
       processFile env fp out file =
         (true, [.readAttempt file, .aiCall (promptFor (env.relative fp file) c),
                 .writeAttempt file d out])) := by
  rcases hr : env.readFileSync file with e | c
  · exact Or.inl ⟨e, rfl, by simp [processFile, hr]⟩
  · rcases hg : env.callGemini (promptFor (env.relative fp file) c) with e | d
    · exact Or.inr (Or.inl ⟨c, e, rfl, hg, by simp [processFile, hr, hg]⟩)
    · rcases hw : env.writeMarkdown file d out with e | q
      · exact Or.inr (Or.inr (Or.inl ⟨c, d, e, rfl, hg, hw,
          by simp [processFile, hr, hg, hw]⟩))
      · exact Or.inr (Or.inr (Or.inr ⟨c, d, q, rfl, hg, hw,
          by simp [processFile, hr, hg, hw]⟩))

theorem processFile_readAttempt (env : Env) (fp out file : String) :
    Event.readAttempt file ∈ (processFile env fp out file).2 := by
  rcases processFile_cases env fp out file with
    ⟨e, -, hpf⟩ | ⟨c, e, -, -, hpf⟩ | ⟨c, d, e, -, -, -, hpf⟩ | ⟨c, d, q, -, -, -, hpf⟩ <;>
  simp [hpf]

theorem processFile_fail_errorReport (env : Env) (fp out file : String)
    (h : (processFile env fp out file).1 = false) :
    ∃ msg, Event.errorReport (env.relative fp file) msg ∈
      (processFile env fp out file).2 := by
  rcases processFile_cases env fp out file with
    ⟨e, -, hpf⟩ | ⟨c, e, -, -, hpf⟩ | ⟨c, d, e, -, -, -, hpf⟩ | ⟨c, d, q, -, -, -, hpf⟩
  · exact ⟨e, by simp [hpf]⟩
  · exact ⟨e, by simp [hpf]⟩
  · exact ⟨e, by simp [hpf]⟩
  · rw [hpf] at h; simp at h

theorem processFile_noDelay (env : Env) (fp out file : String) :
    (processFile env fp out file).2.filter Event.isDelay = [] := by
  rcases processFile_cases env fp out file with
    ⟨e, -, hpf⟩ | ⟨c, e, -, -, hpf⟩ | ⟨c, d, e, -, -, -, hpf⟩ | ⟨c, d, q, -, -, -, hpf⟩ <;>
  simp [hpf, Event.isDelay]

theorem processFile_aiCall_form (env : Env) (fp out file p : String)
    (h : Event.aiCall p ∈ (processFile env fp out file).2) :
    ∃ c, env.readFileSync file = .ok c ∧
      p = promptFor (env.relative fp file) c := by
  rcases processFile_cases env fp out file with
    ⟨e, hr, hpf⟩ | ⟨c, e, hr, -, hpf⟩ | ⟨c, d, e, hr, -, -, hpf⟩ | ⟨c, d, q, hr, -, -, hpf⟩
  · rw [hpf] at h; simp at h
  · rw [hpf] at h; simp at h; exact ⟨c, hr, h⟩
  · rw [hpf] at h; simp at h; exact ⟨c, hr, h⟩
  · rw [hpf] at h; simp at h; exact ⟨c, hr, h⟩

theorem processFile_read_aiCall (env : Env) (fp out file c : String)
    (hr : env.readFileSync file = .ok c) :
    Event.aiCall (promptFor (env.relative fp file) c) ∈
      (processFile env fp out file).2 := by
  rcases processFile_cases env fp out file with
    ⟨e, hr1, hpf⟩ | ⟨c1, e, hr1, -, hpf⟩ | ⟨c1, d, e, hr1, -, -, hpf⟩ |
    ⟨c1, d, q, hr1, -, -, hpf⟩
  · rw [hr] at hr1; simp at hr1
  · rw [hr] at hr1; injection hr1 with hc; subst hc; simp [hpf]
  · rw [hr] at hr1; injection hr1 with hc; subst hc; simp [hpf]
  · rw [hr] at hr1; injection hr1 with hc; subst hc; simp [hpf]

theorem processLoop_counts (env : Env) (fp out : String) (total : Nat) :
    ∀ (files : List String) (idx : Nat),
      (processLoop env fp out total files idx).1 +
        (processLoop env fp out total files idx).2.1 = files.length := by
  intro files
  induction files with
  | nil => intro idx; simp [processLoop_nil]
  | cons f rest ih =>
    intro idx
    have h := ih (idx + 1)
    cases hpf : (processFile env fp out f).1 <;>
      simp [processLoop_cons, hpf] <;> omega

theorem processLoop_allSuccess (env : Env) (fp out : String) (total : Nat) :
    ∀ (files : List String) (idx : Nat),
      (∀ f ∈ files, (processFile env fp out f).1 = true) →
      (processLoop env fp out total files idx).1 = files.length ∧
        (processLoop env fp out total files idx).2.1 = 0 := by
  intro files
  induction files with
  | nil => intro idx _; simp [processLoop_nil]
  | cons f rest ih =>
    intro idx hall
    have hf : (processFile env fp out f).1 = true := hall f (by simp)
    have ht := ih (idx + 1) (fun g hg => hall g (by simp [hg]))
    simp [processLoop_cons, hf, ht.1, ht.2]
    omega

theorem processLoop_mem_trace (env : Env) (fp out : String) (total : Nat)
    (ev : Event) (file : String) :
    ∀ (files : List String) (idx : Nat), file ∈ files →
      ev ∈ (processFile env fp out file).2 →
      ev ∈ (processLoop env fp out total files idx).2.2 := by
  intro files
  induction files with
  | nil => intro idx h; simp at h
  | cons g rest ih =>
    intro idx hmem hev
    rw [processLoop_cons]
    simp only [List.mem_append]
    rcases List.mem_cons.mp hmem with h | h
    · subst h; exact Or.inl hev
    · exact Or.inr (Or.inr (ih (idx + 1) h hev))

theorem processLoop_delayCount (env : Env) (fp out : String) (total : Nat) :
    ∀ (files : List String) (idx : Nat), idx + files.length = total →
      ((processLoop env fp out total files idx).2.2.filter Event.isDelay).length =
        files.length - 1 := by
  intro files
  induction files with
  | nil => intro idx h; simp [processLoop_nil]
  | cons f rest ih =>
    intro idx h
    rw [processLoop_cons]
    simp only [List.filter_append, List.length_append, processFile_noDelay,
      List.length_nil]
    cases rest with
    | nil =>
      have hidx : ¬ (idx < total - 1) := by simp at h; omega
      simp [hidx, processLoop_nil]
    | cons g rest2 =>
      have hidx : idx < total - 1 := by simp at h; omega
      have ht := ih (idx + 1) (by simp at h ⊢; omega)
      simp [hidx, ht, Event.isDelay]
      omega

theorem processLoop_aiCall_form (env : Env) (fp out : String) (total : Nat)
    (p : String) :
    ∀ (files : List String) (idx : Nat),
      Event.aiCall p ∈ (processLoop env fp out total files idx).2.2 →
      ∃ file, file ∈ files ∧ ∃ c, env.readFileSync file = .ok c ∧
        p = promptFor (env.relative fp file) c := by
  intro files
  induction files with
  | nil => intro idx h; simp [processLoop_nil] at h
  | cons f rest ih =>
    intro idx h
    rw [processLoop_cons] at h
    simp only [List.mem_append] at h
    rcases h with h | h | h
    · obtain ⟨c, hr, hp⟩ := processFile_aiCall_form env fp out f p h
      exact ⟨f, by simp, c, hr, hp⟩
    · by_cases hidx : idx < total - 1 <;> simp [hidx] at h
    · obtain ⟨g, hg, hc⟩ := ih (idx + 1) h
      exact ⟨g, by simp [hg], hc⟩

theorem processLoop_trace_eq (env : Env) (fp out : String) (total : Nat) :
    ∀ (files : List String) (idx : Nat),
      (processLoop env fp out total files idx).2.2 =
        ((List.enumFrom idx files).map (fileBlock env fp out total)).flatten := by
  intro files
  induction files with
  | nil => intro idx; simp [processLoop_nil]
  | cons f rest ih =>
    intro idx
    rw [processLoop_cons]
    simp [List.enumFrom, fileBlock, ih (idx + 1)]

theorem processLoop_read_aiCall (env : Env) (fp out : String) (total : Nat) :
    ∀ (files : List String) (idx : Nat) (file c : String), file ∈ files →
      env.readFileSync file = .ok c →
      Event.aiCall (promptFor (env.relative fp file) c) ∈
        (processLoop env fp out total files idx).2.2 :=
  fun files idx file c hmem hr =>
    processLoop_mem_trace env fp out total _ file files idx hmem
      (processFile_read_aiCall env fp out file c hr)

/-- Unfolding of analyzeCodebase on a run that reaches the per-file
loop: valid arguments, existing folder, successful discovery with a
non-empty file list. -/
theorem analyzeCodebase_loop (env : Env) (fp out : String) (options : Options)
    (files : List String) (hfp : fp ≠ "") (hout : options.output = some out)
    (hout2 : out ≠ "") (hex : env.existsSync fp = true)
    (hglob : env.glob (fp ++ "/**/*.js") = .ok files) (hne : files ≠ []) :
    analyzeCodebase env (.str fp) options =
      (RunResult.ok (processLoop env fp out files.length files 0).1
         (processLoop env fp out files.length files 0).2.1,
       Event.discoverAttempt (fp ++ "/**/*.js") ::
         ((processLoop env fp out files.length files 0).2.2 ++
          [Event.summary (processLoop env fp out files.length files 0).1
             (processLoop env fp out files.length files 0).2.1])) := by
  unfold analyzeCodebase
  rw [hout]
  simp [hfp, hout2, hex, hglob, hne]

/-- Claim C1: on any run that reaches the per-file loop, per-file
exceptions are caught locally: the run completes normally (never
thrown), every discovered file is attempted (its read attempt is in the
trace, so the loop continues past failures), and every failing file has
an error report carrying its relative path and an error message. -/
theorem C1_perFileErrorsCaught (env : Env) (fp out : String)
    (options : Options) (files : List String) (hfp : fp ≠ "")
    (hout : options.output = some out) (hout2 : out ≠ "")
    (hex : env.existsSync fp = true)
    (hglob : env.glob (fp ++ "/**/*.js") = .ok files) (hne : files ≠ []) :
    (∃ s e, (analyzeCodebase env (.str fp) options).1 = RunResult.ok s e) ∧
    (∀ file ∈ files,
      Event.readAttempt file ∈ (analyzeCodebase env (.str fp) options).2) ∧
    (∀ file ∈ files, fileSucceeds env fp out file = false →
      ∃ msg, Event.errorReport (env.relative fp file) msg ∈
        (analyzeCodebase env (.str fp) options).2) := by
  rw [analyzeCodebase_loop env fp out options files hfp hout hout2 hex hglob hne]
  refine ⟨⟨_, _, rfl⟩, ?_, ?_⟩
  · intro file hmem
    have := processLoop_mem_trace env fp out files.length _ file files 0 hmem
      (processFile_readAttempt env fp out file)
    simp [this]
  · intro file hmem hfail
    obtain ⟨msg, hmsg⟩ := processFile_fail_errorReport env fp out file hfail
    have := processLoop_mem_trace env fp out files.length _ file files 0 hmem hmsg
    exact ⟨msg, by simp [this]⟩

/-- Claim C2: on any run that reaches the per-file loop, the run
completes with counters satisfying successCount + errorCount = number
of files attempted; and when every per-file step succeeds for all
files, successCount is the number of files and errorCount is zero. -/
theorem C2_countsPartition (env : Env) (fp out : String)
    (options : Options) (files : List String) (hfp : fp ≠ "")
    (hout : options.output = some out) (hout2 : out ≠ "")
    (hex : env.existsSync fp = true)
    (hglob : env.glob (fp ++ "/**/*.js") = .ok files) (hne : files ≠ []) :
    ∃ s e, (analyzeCodebase env (.str fp) options).1 = RunResult.ok s e ∧
      s + e = files.length ∧
      ((∀ file ∈ files, fileSucceeds env fp out file = true) →
        s = files.length ∧ e = 0) := by
  rw [analyzeCodebase_loop env fp out options files hfp hout hout2 hex hglob hne]
  refine ⟨_, _, rfl, processLoop_counts env fp out files.length files 0, ?_⟩
  intro hall
  exact processLoop_allSuccess env fp out files.length files 0 hall

/-- Claim C3: when discovery returns zero matching files, the run warns
and returns normally without throwing, and neither the AI client nor
the markdown writer is ever invoked. -/
theorem C3_emptyDiscovery (env : Env) (fp out : String) (options : Options)
    (hfp : fp ≠ "") (hout : options.output = some out) (hout2 : out ≠ "")
    (hex : env.existsSync fp = true)
    (hglob : env.glob (fp ++ "/**/*.js") = .ok []) :
    analyzeCodebase env (.str fp) options =
      (RunResult.ok 0 0,
       [Event.discoverAttempt (fp ++ "/**/*.js"), Event.warnNoFiles]) ∧
    (∀ p, Event.aiCall p ∉ (analyzeCodebase env (.str fp) options).2) ∧
    (∀ f d o, Event.writeAttempt f d o ∉
      (analyzeCodebase env (.str fp) options).2) := by
  have h : analyzeCodebase env (.str fp) options =
      (RunResult.ok 0 0,
       [Event.discoverAttempt (fp ++ "/**/*.js"), Event.warnNoFiles]) := by
    unfold analyzeCodebase
    rw [hout]
    simp [hfp, hout2, hex, hglob]
  exact ⟨h, fun p => by simp [h], fun f d o => by simp [h]⟩

/-- Claim C4: an empty or non-string folderPath, or an unset output
option, makes the run throw immediately with an empty trace: nothing is
discovered, read, sent to the AI or written, and no summary occurs. -/
theorem C4_invalidArgsThrow (env : Env) (folderPath : FolderPathArg)
    (options : Options)
    (h : folderPath = FolderPathArg.nonString ∨ folderPath = .str "" ∨
      options.output = none) :
    (∃ msg, (analyzeCodebase env folderPath options).1 = .thrown msg) ∧
    (analyzeCodebase env folderPath options).2 = [] := by
  rcases h with h | h | h
  · subst h; exact ⟨⟨"Invalid folder path", rfl⟩, rfl⟩
  · subst h; exact ⟨⟨"Invalid folder path", rfl⟩, rfl⟩
  · cases folderPath with
    | nonString => exact ⟨⟨"Invalid folder path", rfl⟩, rfl⟩
    | str fp =>
      by_cases hfp : fp = ""
      · subst hfp; exact ⟨⟨"Invalid folder path", rfl⟩, rfl⟩
      · refine ⟨⟨"Output directory must be specified", ?_⟩, ?_⟩ <;>
          simp [analyzeCodebase, hfp, h]

/-- Claim C5: when the input folder does not exist, the run throws
before any AI call or write: no aiCall and no writeAttempt event occurs
in the trace. -/
theorem C5_missingFolderThrows (env : Env) (fp out : String)
    (options : Options) (hfp : fp ≠ "") (hout : options.output = some out)
    (hout2 : out ≠ "") (hex : env.existsSync fp = false) :
    (analyzeCodebase env (.str fp) options).1 =
      .thrown ("Folder does not exist: " ++ fp) ∧
    (∀ p, Event.aiCall p ∉ (analyzeCodebase env (.str fp) options).2) ∧
    (∀ f d o, Event.writeAttempt f d o ∉
      (analyzeCodebase env (.str fp) options).2) := by
  have h : analyzeCodebase env (.str fp) options =
      (.thrown ("Folder does not exist: " ++ fp),
       [Event.errorLog ("Folder does not exist: " ++ fp)]) := by
    unfold analyzeCodebase
    rw [hout]
    simp [hfp, hout2, hex]
  exact ⟨by simp [h], fun p => by simp [h], fun f d o => by simp [h]⟩

/-- Claim C6 counterexample: for the fatal invalid-folder-path-argument
error, the run throws but nothing is logged first — the trace carries
no errorLog event — so the claim that every fatal error is first logged
and then re-raised is false at this concrete input. -/
theorem C6_counterexample :
    (analyzeCodebase demoEnv FolderPathArg.nonString demoOpts).1 =
      RunResult.thrown "Invalid folder path" ∧
    ∀ m, Event.errorLog m ∉
      (analyzeCodebase demoEnv FolderPathArg.nonString demoOpts).2 := by
  exact ⟨rfl, fun m => by simp [analyzeCodebase]⟩

/-- Claim C6 amended: every fatal error is re-raised unaltered to the
caller; those raised inside the try block (non-existent folder and
discovery traversal errors) are first logged, while the two
argument-validation errors (invalid folder path — non-string or empty —
and missing output option) are thrown directly without any prior
logging, with an empty trace. -/
theorem C6_fatalLoggedAndReraised (env : Env) (fp out e : String)
    (options optionsNoOut : Options) (hfp : fp ≠ "")
    (hout : options.output = some out) (hout2 : out ≠ "")
    (hnoOut : optionsNoOut.output = none) :
    ((analyzeCodebase env FolderPathArg.nonString options).1 =
        .thrown "Invalid folder path" ∧
      (analyzeCodebase env FolderPathArg.nonString options).2 = []) ∧
    ((analyzeCodebase env (.str "") options).1 =
        .thrown "Invalid folder path" ∧
      (analyzeCodebase env (.str "") options).2 = []) ∧
    ((analyzeCodebase env (.str fp) optionsNoOut).1 =
        .thrown "Output directory must be specified" ∧
      (analyzeCodebase env (.str fp) optionsNoOut).2 = []) ∧
    ((env.existsSync fp = false →
      (analyzeCodebase env (.str fp) options).1 =
        .thrown ("Folder does not exist: " ++ fp) ∧
      Event.errorLog ("Folder does not exist: " ++ fp) ∈
        (analyzeCodebase env (.str fp) options).2)) ∧
    ((env.existsSync fp = true → env.glob (fp ++ "/**/*.js") = .error e →
      (analyzeCodebase env (.str fp) options).1 = .thrown e ∧
      Event.errorLog e ∈ (analyzeCodebase env (.str fp) options).2)) := by
  refine ⟨⟨rfl, rfl⟩, ⟨rfl, rfl⟩, ?_, ?_, ?_⟩
  · have h : analyzeCodebase env (.str fp) optionsNoOut =
        (.thrown "Output directory must be specified", []) := by
      unfold analyzeCodebase
      rw [hnoOut]
      simp [hfp]
    exact ⟨by simp [h], by simp [h]⟩
  · intro hex
    have h : analyzeCodebase env (.str fp) options =
        (.thrown ("Folder does not exist: " ++ fp),
         [Event.errorLog ("Folder does not exist: " ++ fp)]) := by
      unfold analyzeCodebase
      rw [hout]
      simp [hfp, hout2, hex]
    simp [h]
  · intro hex hglob
    have h : analyzeCodebase env (.str fp) options =
        (.thrown e,
         [Event.discoverAttempt (fp ++ "/**/*.js"), Event.errorLog e]) := by
      unfold analyzeCodebase
      rw [hout]
      simp [hfp, hout2, hex, hglob]
    simp [h]

/-- Claim C7: on any run that reaches the per-file loop over N files,
exactly N - 1 delay events occur — one after each file except the last,
independently of per-file success or failure. -/
theorem C7_delayCount (env : Env) (fp out : String) (options : Options)
    (files : List String) (hfp : fp ≠ "") (hout : options.output = some out)
    (hout2 : out ≠ "") (hex : env.existsSync fp = true)
    (hglob : env.glob (fp ++ "/**/*.js") = .ok files) (hne : files ≠ []) :
    (((analyzeCodebase env (.str fp) options).2.filter
      Event.isDelay)).length = files.length - 1 := by
  rw [analyzeCodebase_loop env fp out options files hfp hout hout2 hex hglob hne]
  have h := processLoop_delayCount env fp out files.length files 0 (by omega)
  simp [List.filter_append, Event.isDelay, h]

/-- Claim C8: every prompt ever passed to the AI client is exactly the
fixed instruction template followed by the relative path of the file
and its full content verbatim; and every file whose read succeeds gets
exactly that prompt sent for it. -/
theorem C8_promptExact (env : Env) (fp out : String) (options : Options)
    (files : List String) (hfp : fp ≠ "") (hout : options.output = some out)
    (hout2 : out ≠ "") (hex : env.existsSync fp = true)
    (hglob : env.glob (fp ++ "/**/*.js") = .ok files) (hne : files ≠ []) :
    (∀ p, Event.aiCall p ∈ (analyzeCodebase env (.str fp) options).2 →
      ∃ file, file ∈ files ∧ ∃ content,
        env.readFileSync file = .ok content ∧
        p = promptFor (env.relative fp file) content) ∧
    (∀ file ∈ files, ∀ content, env.readFileSync file = .ok content →
      Event.aiCall (promptFor (env.relative fp file) content) ∈
        (analyzeCodebase env (.str fp) options).2) := by
  rw [analyzeCodebase_loop env fp out options files hfp hout hout2 hex hglob hne]
  constructor
  · intro p hp
    simp only [List.mem_cons, List.mem_append] at hp
    rcases hp with h | h | h | h
    · cases h
    · exact processLoop_aiCall_form env fp out files.length p files 0 h
    · cases h
    · simp at h
  · intro file hmem content hr
    have := processLoop_read_aiCall env fp out files.length files 0 file
      content hmem hr
    simp [this]

/-- Claim C9: files are processed strictly sequentially in discovery
order: the whole trace is the discovery attempt, then the per-file
blocks (the events of one file followed by its inter-file delay)
concatenated in list order with no interleaving, then the summary. -/
theorem C9_sequentialOrder (env : Env) (fp out : String) (options : Options)
    (files : List String) (hfp : fp ≠ "") (hout : options.output = some out)
    (hout2 : out ≠ "") (hex : env.existsSync fp = true)
    (hglob : env.glob (fp ++ "/**/*.js") = .ok files) (hne : files ≠ []) :
    ∃ s e, analyzeCodebase env (.str fp) options =
      (RunResult.ok s e,
       Event.discoverAttempt (fp ++ "/**/*.js") ::
         (((List.enumFrom 0 files).map
             (fileBlock env fp out files.length)).flatten ++
          [Event.summary s e])) := by
  rw [analyzeCodebase_loop env fp out options files hfp hout hout2 hex hglob hne]
  exact ⟨_, _, by rw [processLoop_trace_eq env fp out files.length files 0]⟩

/-- Claim C10: the model option is never read: two calls whose options
agree on output and verbose but differ arbitrarily in model produce
identical results and identical traces. -/
theorem C10_modelOptionUnused (env : Env) (folderPath : FolderPathArg)
    (o1 o2 : Options) (hout : o1.output = o2.output)
    (hverb : o1.verbose = o2.verbose) :
    analyzeCodebase env folderPath o1 = analyzeCodebase env folderPath o2 := by
  cases o1
  cases o2
  cases hout
  cases hverb
  rfl

theorem C1_witness :
    (∃ s e, (analyzeCodebase failEnv (.str "proj") demoOpts).1 =
      RunResult.ok s e) ∧
    (∀ file ∈ ["proj/a.js", "proj/b.js", "proj/c.js"],
      Event.readAttempt file ∈
        (analyzeCodebase failEnv (.str "proj") demoOpts).2) ∧
    (∀ file ∈ ["proj/a.js", "proj/b.js", "proj/c.js"],
      fileSucceeds failEnv "proj" "out" file = false →
      ∃ msg, Event.errorReport (failEnv.relative "proj" file) msg ∈
        (analyzeCodebase failEnv (.str "proj") demoOpts).2) :=
  C1_perFileErrorsCaught failEnv "proj" "out" demoOpts
    ["proj/a.js", "proj/b.js", "proj/c.js"] (by decide) rfl (by decide)
    rfl rfl (by decide)

theorem C2_witness :
    ∃ s e, (analyzeCodebase demoEnv (.str "proj") demoOpts).1 =
      RunResult.ok s e ∧
      s + e = (["proj/a.js", "proj/b.js"] : List String).length ∧
      ((∀ file ∈ ["proj/a.js", "proj/b.js"],
        fileSucceeds demoEnv "proj" "out" file = true) →
        s = (["proj/a.js", "proj/b.js"] : List String).length ∧ e = 0) :=
  C2_countsPartition demoEnv "proj" "out" demoOpts ["proj/a.js", "proj/b.js"]
    (by decide) rfl (by decide) rfl rfl (by decide)

theorem C3_witness :
    analyzeCodebase emptyEnv (.str "proj") demoOpts =
      (RunResult.ok 0 0,
       [Event.discoverAttempt ("proj" ++ "/**/*.js"), Event.warnNoFiles]) ∧
    (∀ p, Event.aiCall p ∉
      (analyzeCodebase emptyEnv (.str "proj") demoOpts).2) ∧
    (∀ f d o, Event.writeAttempt f d o ∉
      (analyzeCodebase emptyEnv (.str "proj") demoOpts).2) :=
  C3_emptyDiscovery emptyEnv "proj" "out" demoOpts (by decide) rfl
    (by decide) rfl rfl

theorem C4_witness :
    (∃ msg, (analyzeCodebase demoEnv (FolderPathArg.str "") demoOpts).1 =
      .thrown msg) ∧
    (analyzeCodebase demoEnv (FolderPathArg.str "") demoOpts).2 = [] :=
  C4_invalidArgsThrow demoEnv (.str "") demoOpts (Or.inr (Or.inl rfl))

theorem C5_witness :
    (analyzeCodebase missingEnv (.str "proj") demoOpts).1 =
      .thrown ("Folder does not exist: " ++ "proj") ∧
    (∀ p, Event.aiCall p ∉
      (analyzeCodebase missingEnv (.str "proj") demoOpts).2) ∧
    (∀ f d o, Event.writeAttempt f d o ∉
      (analyzeCodebase missingEnv (.str "proj") demoOpts).2) :=
  C5_missingFolderThrows missingEnv "proj" "out" demoOpts (by decide) rfl
    (by decide) rfl

theorem C6_witness :
    ((analyzeCodebase globErrEnv FolderPathArg.nonString demoOpts).1 =
        .thrown "Invalid folder path" ∧
      (analyzeCodebase globErrEnv FolderPathArg.nonString demoOpts).2 = []) ∧
    ((analyzeCodebase globErrEnv (.str "") demoOpts).1 =
        .thrown "Invalid folder path" ∧
      (analyzeCodebase globErrEnv (.str "") demoOpts).2 = []) ∧
    ((analyzeCodebase globErrEnv (.str "proj") noOutOpts).1 =
        .thrown "Output directory must be specified" ∧
      (analyzeCodebase globErrEnv (.str "proj") noOutOpts).2 = []) ∧
    ((globErrEnv.existsSync "proj" = false →
      (analyzeCodebase globErrEnv (.str "proj") demoOpts).1 =
        .thrown ("Folder does not exist: " ++ "proj") ∧
      Event.errorLog ("Folder does not exist: " ++ "proj") ∈
        (analyzeCodebase globErrEnv (.str "proj") demoOpts).2)) ∧
    ((globErrEnv.existsSync "proj" = true →
      globErrEnv.glob ("proj" ++ "/**/*.js") = .error "EACCES" →
      (analyzeCodebase globErrEnv (.str "proj") demoOpts).1 =
        .thrown "EACCES" ∧
      Event.errorLog "EACCES" ∈
        (analyzeCodebase globErrEnv (.str "proj") demoOpts).2)) :=
  C6_fatalLoggedAndReraised globErrEnv "proj" "out" "EACCES" demoOpts
    noOutOpts (by decide) rfl (by decide) rfl

theorem C7_witness :
    (((analyzeCodebase failEnv (.str "proj") demoOpts).2.filter
      Event.isDelay)).length =
      (["proj/a.js", "proj/b.js", "proj/c.js"] : List String).length - 1 :=
  C7_delayCount failEnv "proj" "out" demoOpts
    ["proj/a.js", "proj/b.js", "proj/c.js"] (by decide) rfl (by decide)
    rfl rfl (by decide)

theorem C8_witness :
    (∀ p, Event.aiCall p ∈
      (analyzeCodebase demoEnv (.str "proj") demoOpts).2 →
      ∃ file, file ∈ ["proj/a.js", "proj/b.js"] ∧ ∃ content,
        demoEnv.readFileSync file = .ok content ∧
        p = promptFor (demoEnv.relative "proj" file) content) ∧
    (∀ file ∈ ["proj/a.js", "proj/b.js"], ∀ content,
      demoEnv.readFileSync file = .ok content →
      Event.aiCall (promptFor (demoEnv.relative "proj" file) content) ∈
        (analyzeCodebase demoEnv (.str "proj") demoOpts).2) :=
  C8_promptExact demoEnv "proj" "out" demoOpts ["proj/a.js", "proj/b.js"]
    (by decide) rfl (by decide) rfl rfl (by decide)

theorem C9_witness :
    ∃ s e, analyzeCodebase demoEnv (.str "proj") demoOpts =
      (RunResult.ok s e,
       Event.discoverAttempt ("proj" ++ "/**/*.js") ::
         (((List.enumFrom 0 ["proj/a.js", "proj/b.js"]).map
             (fileBlock demoEnv "proj" "out"
               (["proj/a.js", "proj/b.js"] : List String).length)).flatten ++
          [Event.summary s e])) :=
  C9_sequentialOrder demoEnv "proj" "out" demoOpts ["proj/a.js", "proj/b.js"]
    (by decide) rfl (by decide) rfl rfl (by decide)

theorem C10_witness :
    analyzeCodebase demoEnv (.str "proj")
      ⟨some "out", some "gemini", false⟩ =
    analyzeCodebase demoEnv (.str "proj")
      ⟨some "out", some "claude", false⟩ :=
  C10_modelOptionUnused demoEnv (.str "proj")
    ⟨some "out", some "gemini", false⟩ ⟨some "out", some "claude", false⟩
    rfl rfl
